import Mathlib

/-!
Verification of the `alignas` crate (src/lib.rs): a single `#[repr(C)]` union
`AlignAs<T: Copy, A: Copy> { t: T, _marker: A }` that stores a `T` payload at the
alignment of `A`, together with its delegating trait impls (`new`, `Deref`,
`DerefMut`, `Default`, `Debug`, `Display`, `PartialEq`, `PartialOrd`, `Ord`,
`Hash`).

Three layers of embedding:
* `Layout` / `alignAsLayout`: the size-and-alignment layout of the union, following
  the `#[repr(C)]` union layout rules of the Rust reference (alignment is the max of
  the field alignments, each field sits at offset 0, size is the max field size
  rounded up to the alignment; alignments are always powers of two, so we carry the
  exponent).
* `AlignAs`: the value-level semantics. The union's only ever-active field is `t`
  (justified by the `UnionField`/`Reachable` layer), so at the value level the
  wrapper carries exactly one `T`; the `A` parameter is phantom. The trait impls of
  src/lib.rs are one-line delegations through `deref`, and are embedded as such,
  parameterized by the payload type's own operation (`eqT`, `pc`, `c`, `hs`,
  `fmtT`), which models the `T: PartialEq` etc. bounds.
* `UnionField` / `Reachable`: the union storage itself, tracking which field is the
  active (initialized) interpretation, with `none` modelling the undefined behaviour
  of reading an inactive or uninitialized field. `Reachable` enumerates exactly the
  ways the crate creates or modifies a wrapper: `new`, `default`, bitwise
  copy/clone, and writes through `deref_mut`.
-/

namespace Alignas

/-- Size and alignment of a Rust type. Rust alignments are always powers of two, so
the alignment is carried as its exponent: the alignment in bytes is `2 ^ alignExp`. -/
structure Layout where
  size : Nat
  alignExp : Nat
deriving DecidableEq, Repr

/-- The alignment in bytes described by a `Layout`. -/
def Layout.align (l : Layout) : Nat := 2 ^ l.alignExp

/-- Round `n` up to the next multiple of `a`. -/
def roundUp (n a : Nat) : Nat := (n + a - 1) / a * a

/-- Layout of the `#[repr(C)]` union `AlignAs<T, A>` (src/lib.rs lines 27-32), by the
repr(C) union rules: its alignment is the max of the field alignments and its size is
the max of the field sizes rounded up to that alignment. `lt` is the layout of the
payload type `T`, `la` that of the alignment-source type `A`. -/
def alignAsLayout (lt la : Layout) : Layout :=
  { alignExp := max lt.alignExp la.alignExp
  , size := roundUp (max lt.size la.size) (2 ^ max lt.alignExp la.alignExp) }

/-- In a `#[repr(C)]` union every field is placed at offset 0; in particular the
payload field `t` of `AlignAs<T, A>`. -/
def alignAsFieldOffset : Nat := 0

/-- Value-level model of `AlignAs<T, A>` (src/lib.rs lines 27-32). The union's only
ever-initialized field is `t` (see `Reachable` and `reachable_t_initialized` below),
so its runtime content is exactly one `T`; the `A` parameter only influences layout
and is phantom at the value level. -/
structure AlignAs (T : Type) (A : Type) where
  t : T
deriving DecidableEq, Repr

namespace AlignAs

/-- `AlignAs::new` (src/lib.rs lines 34-40): `AlignAs { t }`. -/
def new {T A : Type} (t : T) : AlignAs T A := ⟨t⟩

/-- `Deref::deref` (src/lib.rs lines 42-48): the read view `&self.t`. -/
def deref {T A : Type} (w : AlignAs T A) : T := w.t

/-- A write through `DerefMut::deref_mut` (src/lib.rs lines 50-55): the mutable view
is `&mut self.t`, so an in-place mutation `f` applied through it replaces the payload
by `f` of the payload and touches nothing else. -/
def modifyMut {T A : Type} (f : T → T) (w : AlignAs T A) : AlignAs T A := ⟨f w.t⟩

/-- `Default::default` (src/lib.rs lines 57-62): `Self::new(T::default())`, with the
payload type's default value passed as `d`. -/
def default {T A : Type} (d : T) : AlignAs T A := new d

/-- `Debug::fmt` (src/lib.rs lines 64-69): `self.deref().fmt(f)`, with the payload
type's own Debug formatting passed as `fmtT` (modelled as the text it writes). -/
def debugFmt {T A : Type} (fmtT : T → String) (w : AlignAs T A) : String :=
  fmtT w.deref

/-- `Display::fmt` (src/lib.rs lines 71-76): `self.deref().fmt(f)`, with the payload
type's own Display formatting passed as `fmtT`. -/
def displayFmt {T A : Type} (fmtT : T → String) (w : AlignAs T A) : String :=
  fmtT w.deref

/-- `PartialEq::eq` (src/lib.rs lines 78-84): `self.deref().eq(rhs)`; `rhs` deref-
coerces to `&T`, so both sides are compared through the read view with the payload
type's own equality `eqT`. -/
def beq {T A : Type} (eqT : T → T → Bool) (w1 w2 : AlignAs T A) : Bool :=
  eqT w1.deref w2.deref

/-- `PartialOrd::partial_cmp` (src/lib.rs lines 86-91): `self.deref().partial_cmp(rhs)`. -/
def partialCmp {T A : Type} (pc : T → T → Option Ordering) (w1 w2 : AlignAs T A) :
    Option Ordering :=
  pc w1.deref w2.deref

/-- `Ord::cmp` (src/lib.rs lines 92-97): `self.deref().cmp(rhs)`. -/
def cmp {T A : Type} (c : T → T → Ordering) (w1 w2 : AlignAs T A) : Ordering :=
  c w1.deref w2.deref

/-- `Hash::hash` (src/lib.rs lines 99-103): `self.deref().hash(h)`. A hasher is
modelled as a state of type `H` evolved by the payload type's own `hash`, passed as
`hs : T → H → H`. -/
def hash {T A H : Type} (hs : T → H → H) (w : AlignAs T A) (h : H) : H :=
  hs w.deref h

end AlignAs

/-- The storage of the union `AlignAs<T, A>` with its active interpretation tracked:
either the payload field `t` is initialized, or the `_marker` field is, or the
storage was never written. Reading a field that is not the active one is undefined
behaviour in Rust, so the read below returns `none` there. -/
inductive UnionField (T : Type) (A : Type) where
  | t (v : T)
  | marker (a : A)
  | uninit
deriving DecidableEq, Repr

namespace UnionField

/-- `AlignAs::new` on the union storage: `AlignAs { t }` initializes the field `t`,
making it the active interpretation. -/
def newU {T A : Type} (v : T) : UnionField T A := .t v

/-- `Default::default` on the union storage: `Self::new(T::default())`. -/
def defaultU {T A : Type} (d : T) : UnionField T A := newU d

/-- `derive(Copy, Clone)` on the union: a bitwise copy reproduces the storage with
the same active interpretation. -/
def copyU {T A : Type} (s : UnionField T A) : UnionField T A := s

/-- The `unsafe { &self.t }` read in `deref`/`deref_mut`: defined exactly when `t` is
the active, initialized field; reading `t` otherwise is undefined behaviour,
modelled as `none`. -/
def derefU {T A : Type} : UnionField T A → Option T
  | .t v => some v
  | .marker _ => none
  | .uninit => none

/-- A write through `deref_mut`: reads `&mut self.t` (defined only when `t` is
active) and applies the in-place mutation `f` to it; `t` stays the active field. -/
def derefMutU {T A : Type} (f : T → T) : UnionField T A → Option (UnionField T A)
  | .t v => some (.t (f v))
  | .marker _ => none
  | .uninit => none

end UnionField

/-- The union storages an `AlignAs<T, A>` value can ever be in: produced by `new`,
by `Default::default`, by a `Copy`/`Clone` duplication, or from a previous such
storage by a successful write through `deref_mut`. These are all the ways the crate
creates or modifies a wrapper; no operation of the crate ever writes `_marker`. -/
inductive Reachable {T A : Type} : UnionField T A → Prop where
  | ofNew (v : T) : Reachable (UnionField.newU v)
  | ofDefault (d : T) : Reachable (UnionField.defaultU d)
  | ofCopy {s : UnionField T A} : Reachable s → Reachable (UnionField.copyU s)
  | ofWrite {s s' : UnionField T A} (f : T → T) :
      Reachable s → UnionField.derefMutU f s = some s' → Reachable s'

/-- `<[u8]>::copy_from_slice` into the subrange of `dst` starting at `off`: the
bytes `off .. off + src.length` are replaced by `src`, the rest of `dst` is kept. -/
def copyFromSlice (dst : List Nat) (off : Nat) (src : List Nat) : List Nat :=
  dst.take off ++ src ++ dst.drop (off + src.length)

/-- The 16-byte pattern written in the mutation scenario. -/
def pattern16 : List Nat :=
  [17, 42, 3, 99, 250, 7, 8, 1, 0, 255, 64, 33, 5, 6, 128, 9]

/-- The mutation scenario: a wrapper over a 64-byte zero-filled buffer with an
8-byte-aligned alignment source (`u64`, phantom at the value level), the 16-byte
pattern written through the mutable view at byte offset 3, then read back through
the read view. -/
def mutatedBuffer : List Nat :=
  (AlignAs.modifyMut (fun b => copyFromSlice b 3 pattern16)
    (AlignAs.new (A := Nat) (List.replicate 64 0))).deref

/-- C1: the alignment of `AlignAs<T, A>` is at least the max of the alignments of
`T` and of `A`; and since an instance starts at an address divisible by that
alignment and the payload field `t` sits at offset 0 in the repr(C) union, the
starting address of the contained payload is divisible by the alignment of `A`. -/
theorem alignAs_alignment_ge_max (lt la : Layout) :
    max lt.align la.align ≤ (alignAsLayout lt la).align
    ∧ ∀ addr : Nat, (alignAsLayout lt la).align ∣ addr →
        la.align ∣ (addr + alignAsFieldOffset) := by
  constructor
  · exact max_le
      (Nat.pow_le_pow_right (by norm_num) (le_max_left _ _))
      (Nat.pow_le_pow_right (by norm_num) (le_max_right _ _))
  · intro addr hdvd
    have h1 : la.align ∣ (alignAsLayout lt la).align :=
      pow_dvd_pow 2 (le_max_right lt.alignExp la.alignExp)
    simpa [alignAsFieldOffset] using h1.trans hdvd

theorem alignAs_alignment_ge_max_witness :
    (Layout.mk 8 3).align ∣ (16 + alignAsFieldOffset) :=
  (alignAs_alignment_ge_max (Layout.mk 64 0) (Layout.mk 8 3)).2 16 (by decide)

/-- C2: round-trip of construction and read access: reading through the wrapper
built by `AlignAs::new(v)` yields exactly `v`, for every payload value of every type
and every alignment-source type. -/
theorem new_deref_roundtrip (T A : Type) (v : T) :
    (AlignAs.new (A := A) v).deref = v := rfl

/-- C3: mutation round-trip with frame condition: over a 64-byte zero-filled buffer
(8-byte alignment source), writing the 16-byte `pattern16` through the mutable view
at byte offset 3 and reading back through the read view yields exactly that pattern
at bytes 3..19, while bytes 0..3 and 19..64 remain zero. -/
theorem mutate_frame_roundtrip :
    mutatedBuffer.length = 64
    ∧ mutatedBuffer.take 3 = List.replicate 3 0
    ∧ (mutatedBuffer.drop 3).take 16 = pattern16
    ∧ mutatedBuffer.drop 19 = List.replicate 45 0 := by decide

/-- C4: equality and hashing ignore the alignment-source type parameter: two
wrappers built over the same payload value compare equal (whatever the
alignment-source type, given the payload equality is reflexive at that value), and
the hash of a wrapper over `v` is the same whether the alignment source is `A1` or
`A2`. -/
theorem eq_hash_ignore_alignment_source (T A1 A2 H : Type)
    (eqT : T → T → Bool) (hs : T → H → H) (v : T) (h0 : H)
    (hrefl : eqT v v = true) :
    AlignAs.beq eqT (AlignAs.new (A := A1) v) (AlignAs.new v) = true
    ∧ AlignAs.beq eqT (AlignAs.new (A := A2) v) (AlignAs.new v) = true
    ∧ AlignAs.hash hs (AlignAs.new (A := A1) v) h0
        = AlignAs.hash hs (AlignAs.new (A := A2) v) h0 :=
  ⟨hrefl, hrefl, rfl⟩

theorem eq_hash_ignore_alignment_source_witness :
    AlignAs.beq Nat.beq (AlignAs.new (A := Nat) 5) (AlignAs.new 5) = true
    ∧ AlignAs.beq Nat.beq (AlignAs.new (A := Bool) 5) (AlignAs.new 5) = true
    ∧ AlignAs.hash Nat.add (AlignAs.new (A := Nat) 5) 7
        = AlignAs.hash Nat.add (AlignAs.new (A := Bool) 5) 7 :=
  eq_hash_ignore_alignment_source Nat Nat Bool Nat Nat.beq Nat.add 5 7 (by decide)

/-- C5: default construction contains exactly the payload type's default value, and
is exactly the composition of the payload default with `AlignAs::new`. -/
theorem default_is_new_of_default (T A : Type) (d : T) :
    (AlignAs.default (A := A) d).deref = d
    ∧ AlignAs.default (A := A) d = AlignAs.new d :=
  ⟨rfl, rfl⟩

/-- C6: equality and ordering forward to the payload: wrappers compare equal exactly
when their contained values do, `partial_cmp` equals the payload partial comparison
of the contained values, and `cmp` equals the payload total comparison. -/
theorem cmp_forwards_to_payload (T A : Type) (eqT : T → T → Bool)
    (pc : T → T → Option Ordering) (c : T → T → Ordering)
    (w1 w2 : AlignAs T A) :
    (AlignAs.beq eqT w1 w2 = true ↔ eqT w1.deref w2.deref = true)
    ∧ AlignAs.partialCmp pc w1 w2 = pc w1.deref w2.deref
    ∧ AlignAs.cmp c w1 w2 = c w1.deref w2.deref :=
  ⟨Iff.rfl, rfl, rfl⟩

/-- C7: hashing forwards to the payload: for every hasher state, hashing the wrapper
evolves the hasher exactly as hashing the contained value does, contributing no
extra data. -/
theorem hash_forwards_to_payload (T A H : Type) (hs : T → H → H)
    (w : AlignAs T A) (h : H) :
    AlignAs.hash hs w h = hs w.deref h := rfl

/-- C8: formatting forwards to the payload: the Debug output of a wrapper equals the
Debug output of the contained value, and likewise for Display. -/
theorem fmt_forwards_to_payload (T A : Type) (fmtD fmtS : T → String)
    (w : AlignAs T A) :
    AlignAs.debugFmt fmtD w = fmtD w.deref
    ∧ AlignAs.displayFmt fmtS w = fmtS w.deref :=
  ⟨rfl, rfl⟩

/-- C9: no runtime failure: construction, default construction, read access and
write access all succeed on every input: the reads of union storages produced by
`new` and `default` are defined and return the stored value, and a write through
`deref_mut` on such a storage succeeds, leaving `t` active with the mutated value. -/
theorem ops_never_fail (T A : Type) (v d : T) (f : T → T) :
    UnionField.derefU (UnionField.newU (A := A) v) = some v
    ∧ UnionField.derefU (UnionField.defaultU (A := A) d) = some d
    ∧ UnionField.derefMutU f (UnionField.newU (A := A) v)
        = some (UnionField.newU (f v)) :=
  ⟨rfl, rfl, rfl⟩

/-- C10: invariant: every union storage reachable through the crate's operations
(`new`, `default`, copy/clone, writes through `deref_mut`) has the payload field `t`
as its active, initialized interpretation — never `_marker`, never uninitialized —
so the unsafe reads of `self.t` in `deref` and `deref_mut` always observe a valid,
initialized `T`. -/
theorem reachable_t_initialized (T A : Type) (s : UnionField T A)
    (h : Reachable s) :
    ∃ v, s = UnionField.t v ∧ UnionField.derefU s = some v := by
  induction h with
  | ofNew v => exact ⟨v, rfl, rfl⟩
  | ofDefault d => exact ⟨d, rfl, rfl⟩
  | ofCopy _ ih => exact ih
  | ofWrite f _ hw ih =>
    obtain ⟨v, rfl, _⟩ := ih
    injection hw with hw
    exact ⟨f v, hw.symm, hw ▸ rfl⟩

theorem reachable_t_initialized_witness :
    ∃ v, (UnionField.newU (T := Nat) (A := Bool) 7) = UnionField.t v
      ∧ UnionField.derefU (UnionField.newU (T := Nat) (A := Bool) 7) = some v :=
  reachable_t_initialized Nat Bool (UnionField.newU 7) (Reachable.ofNew 7)

end Alignas
